import Mathlib

/-!
Verification development for the PubMed MCP retrieval/caching engine
(`pubmed_mcp` package: `cache.py`, `backend.py`, `client.py`, `config.py`).

The Python source is shallowly embedded: every stateful method becomes a
pure Lean function that takes the relevant state (and oracles standing for
network responses / file contents) and returns the result together with
the successor state.  Python `dict`s, which preserve insertion order, are
embedded as association lists with dict-style insertion (replace in place
if the key exists, append otherwise).
-/

namespace PubMedMCP

/-- Lookup in an insertion-ordered association list (Python `dict.get`). -/
def lookupKey {β : Type} (l : List (String × β)) (k : String) : Option β :=
  (l.find? (fun p => p.1 = k)).map (·.2)

/-- Python `dict` assignment `d[k] = v`: replaces the first binding of `k`
in place, otherwise appends a new binding at the end. -/
def dictInsert {β : Type} (l : List (String × β)) (k : String) (v : β) :
    List (String × β) :=
  match l with
  | [] => [(k, v)]
  | (k2, v2) :: rest =>
      if k2 = k then (k2, v) :: rest else (k2, v2) :: dictInsert rest k v

/-- Python `dict.pop(k, None)`: removes the first binding of `k`, if any. -/
def dictPop {β : Type} (l : List (String × β)) (k : String) :
    List (String × β) :=
  l.eraseP (fun p => p.1 = k)

/-- One memory-cache entry: `{"value": value, "ts": now_ms}` (`cache.py`). -/
structure MemEntry (α : Type) where
  value : α
  ts : Nat
  deriving Repr, DecidableEq

/-- Embeds `MemoryCacheStats` (`cache.py`, lines 11-16). -/
structure MemoryCacheStats where
  hits : Nat := 0
  misses : Nat := 0
  sets : Nat := 0
  evictions : Nat := 0
  deriving Repr, DecidableEq

/-- Embeds `MemoryCache` (`cache.py`, lines 19-24); `data` is the insertion-ordered
Python dict. -/
structure MemoryCache (α : Type) where
  timeout_ms : Nat
  max_size : Nat
  data : List (String × MemEntry α) := []
  stats : MemoryCacheStats := {}
  deriving Repr

/-- The key Python's stable `min(items, key=ts)` selects: the first binding
whose timestamp is strictly smaller than every earlier candidate
(`cache.py`, line 41). -/
def oldestGo {α : Type} (k : String) (e : MemEntry α) :
    List (String × MemEntry α) → String
  | [] => k
  | (k2, e2) :: rest =>
      if e2.ts < e.ts then oldestGo k2 e2 rest else oldestGo k e rest

/-- Key of the oldest-by-timestamp entry, `none` on an empty dict (where the
Python `min` would raise). -/
def oldestKey {α : Type} : List (String × MemEntry α) → Option String
  | [] => none
  | (k, e) :: rest => some (oldestGo k e rest)

namespace MemoryCache

/-- Embeds `MemoryCache.get(key, now_ms)` (`cache.py`, lines 26-36): returns the
value (if present and fresh) together with the successor cache state. -/
def get {α : Type} (c : MemoryCache α) (key : String) (now_ms : Nat) :
    Option α × MemoryCache α :=
  match lookupKey c.data key with
  | none =>
      (none, { c with stats := { c.stats with misses := c.stats.misses + 1 } })
  | some entry =>
      if now_ms - entry.ts > c.timeout_ms then
        (none,
         { c with
             data := dictPop c.data key
             stats := { c.stats with misses := c.stats.misses + 1 } })
      else
        (some entry.value,
         { c with stats := { c.stats with hits := c.stats.hits + 1 } })

/-- Embeds `MemoryCache.set(key, value, now_ms)` (`cache.py`, lines 38-45).  When
the dict is at capacity the oldest-by-timestamp entry is popped first; the
`none` branch of `oldestKey` is the state where Python's `min` over an empty
dict would raise a `ValueError` (reachable only with `max_size = 0`). -/
def set {α : Type} (c : MemoryCache α) (key : String) (value : α)
    (now_ms : Nat) : MemoryCache α :=
  let c1 :=
    if c.data.length ≥ c.max_size then
      match oldestKey c.data with
      | some oldest =>
          { c with
              data := dictPop c.data oldest
              stats := { c.stats with evictions := c.stats.evictions + 1 } }
      | none => c
    else c
  { c1 with
      data := dictInsert c1.data key ⟨value, now_ms⟩
      stats := { c1.stats with sets := c1.stats.sets + 1 } }

end MemoryCache

/-- Article record as built by `_fetch_from_pubmed` (`backend.py`,
lines 187-202). -/
structure Article where
  pmid : String
  title : String
  authors : List String
  journal : String
  publicationDate : String
  volume : String := ""
  issue : String := ""
  pages : String := ""
  abstract : Option String := none
  doi : String := ""
  url : String := ""
  publicationTypes : List String := []
  meshTerms : List String := []
  keywords : List String := []
  deriving Repr, DecidableEq

/-- One record of the esummary JSON response (`result[pmid]`), with the
fields `_fetch_from_pubmed` reads; `Option` marks fields looked up with a
`.get` default. -/
structure RawSummary where
  title : Option String := none
  authors : List (Option String) := []
  source : Option String := none
  pubdate : Option String := none
  volume : Option String := none
  issue : Option String := none
  pages : Option String := none
  abstract : Option String := none
  elocationid : Option String := none
  pubtype : List String := []
  meshterms : List String := []
  keywords : List String := []
  deriving Repr

/-- The article dict built from one esummary record (`backend.py`,
lines 187-202); author names are kept only when present and non-empty
(Python truthiness of `author.get("name")`). -/
def articleFromRaw (pmid : String) (raw : RawSummary) : Article where
  pmid := pmid
  title := raw.title.getD "No title"
  authors := raw.authors.filterMap fun n =>
    match n with
    | some s => if s = "" then none else some s
    | none => none
  journal := raw.source.getD "No journal"
  publicationDate := raw.pubdate.getD "No date"
  volume := raw.volume.getD ""
  issue := raw.issue.getD ""
  pages := raw.pages.getD ""
  abstract := raw.abstract
  doi := raw.elocationid.getD ""
  url := "https://pubmed.ncbi.nlm.nih.gov/" ++ pmid ++ "/"
  publicationTypes := raw.pubtype
  meshTerms := raw.meshterms
  keywords := raw.keywords

/-- The deep-abstract refinement of `_fetch_from_pubmed` (`backend.py`,
lines 204-209): in `deep` mode a short or missing summary abstract is
replaced by a full-abstract fetch, whose failure is swallowed. -/
def deepAbstract (abstract_mode : String)
    (fullAbs : String → Except String String) (pmid : String) (a : Article) :
    Article :=
  let short : Bool :=
    match a.abstract with
    | none => true
    | some s => s.length < 1000
  if abstract_mode = "deep" ∧ short then
    match fullAbs pmid with
    | .ok text => { a with abstract := some text }
    | .error _ => a
  else a

/-- One iteration of the `_fetch_from_pubmed` loop body (`backend.py`,
lines 183-211): `result.get(pmid)` (`none` for records that are absent
or falsy, which the loop skips) turned into an article, with the
deep-abstract refinement applied. -/
def fetch_one (net : String → Option RawSummary) (abstract_mode : String)
    (fullAbs : String → Except String String) (pmid : String) :
    Option Article :=
  (net pmid).map fun raw =>
    deepAbstract abstract_mode fullAbs pmid (articleFromRaw pmid raw)

/-- Embeds `_fetch_from_pubmed(ids)` (`backend.py`, lines 169-212): `net pmid`
stands for `result.get(pmid)` of the single batched esummary response. -/
def fetch_from_pubmed (net : String → Option RawSummary)
    (abstract_mode : String) (fullAbs : String → Except String String)
    (ids : List String) : List Article :=
  ids.filterMap (fetch_one net abstract_mode fullAbs)

/-- Embeds `{a["pmid"]: a for a in articles}` followed by `index.get(p)`: walk
the articles in order, later entries overwriting earlier ones, and
return the final binding for `p` (if any). -/
def dictLast (articles : List Article) (p : String) : Option Article :=
  articles.foldl (fun acc a => if a.pmid = p then some a else acc) none

/-- Embeds `fetch_article_details(ids)` (`backend.py`, lines 147-167): `cache pmid`
stands for `_read_article_cache(pmid)` against the file store at call time.
The write-back of freshly fetched articles does not influence the returned
list and is not part of this value-level embedding. -/
def fetch_article_details (cache : String → Option Article)
    (net : String → Option RawSummary) (abstract_mode : String)
    (fullAbs : String → Except String String) (ids : List String) :
    List Article :=
  let cachedArts := ids.filterMap cache
  let uncached := ids.filter (fun p => (cache p).isNone)
  let fetched := fetch_from_pubmed net abstract_mode fullAbs uncached
  let articles := cachedArts ++ fetched
  ids.filterMap (fun p => dictLast articles p)

/-- The per-pmid contract the spec states for the fetch pipeline
(spec §4.5, modelled from the spec's words for comparison with
`fetch_article_details`): each input pmid resolves to its cached
article if one exists, otherwise to the network result, and is dropped
when both are absent. -/
def resolve_article (cache : String → Option Article)
    (net : String → Option RawSummary) (abstract_mode : String)
    (fullAbs : String → Except String String) (p : String) :
    Option Article :=
  match cache p with
  | some a => some a
  | none => fetch_one net abstract_mode fullAbs p

/-- Embeds `{version, pmid, timestamp, data}` as persisted by
`_write_article_cache` (`backend.py`, lines 243-250). -/
structure PersistedArticleRecord where
  version : String
  pmid : String
  timestamp : Nat
  data : Article
  deriving Repr

/-- Embeds `_read_article_cache(pmid)` (`backend.py`, lines 230-241): `file` is the
parsed JSON on disk (`none` when missing or corrupt); the second component
is the file after the read (expired entries are unlinked). -/
def read_article_cache (file : Option PersistedArticleRecord)
    (now_ms expiry_ms : Nat) :
    Option Article × Option PersistedArticleRecord :=
  match file with
  | none => (none, none)
  | some entry =>
      if now_ms - entry.timestamp > expiry_ms then (none, none)
      else (some entry.data, some entry)

/-- Embeds `PMC_BASE_URL` (`backend.py`, line 21). -/
def PMC_BASE_URL : String := "https://www.ncbi.nlm.nih.gov/pmc"

/-- First index at which `needle` occurs in `hay` (Python `str.find`),
scanning from position `i`. -/
def findSubAux (needle : List Char) : List Char → Nat → Option Nat
  | [], i => if needle = [] then some i else none
  | c :: rest, i =>
      if needle.isPrefixOf (c :: rest) then some i
      else findSubAux needle rest (i + 1)

/-- Python `hay.find(needle)` (`none` for `-1`). -/
def findSub (hay needle : List Char) : Option Nat :=
  findSubAux needle hay 0

/-- Result of `_check_pmc` (`backend.py`, lines 458-484). -/
structure PmcInfo where
  pmcid : String
  download_url : String
  deriving Repr, DecidableEq

/-- The token scan of `_check_pmc` over the fetched page body
(`backend.py`, lines 465-484): find `PMC`, collect up to ten following
digit characters, and build the canonical PMC PDF path. -/
def parse_pmc_html (html : String) : Option PmcInfo :=
  let hay := html.toList
  match findSub hay "PMC".toList with
  | none => none
  | some idx =>
      let digits := ((hay.drop (idx + 3)).take 10).takeWhile (fun ch => ch.isDigit)
      if digits.isEmpty then none
      else
        let pmcid := "PMC" ++ String.mk digits
        some ⟨pmcid, PMC_BASE_URL ++ "/articles/" ++ pmcid ++ "/pdf/"⟩

/-- Embeds `_check_pmc(pmid)` (`backend.py`, lines 458-484): `httpHtml` is the
outcome of the guarded `http.get` on the PMC search page (`Except.error`
for a raised transport/HTTP error, which the `except` clause turns into
`None`). -/
def check_pmc (httpHtml : Except String String) : Option PmcInfo :=
  match httpHtml with
  | .error _ => none
  | .ok html => parse_pmc_html html

/-- Embeds `best_oa_location` object of an Unpaywall response (`url` field,
empty string for a missing/falsy `url`). -/
structure UnpaywallLocation where
  url : String := ""
  deriving Repr, DecidableEq

/-- Parsed Unpaywall JSON body, restricted to the fields
`_check_unpaywall` reads. -/
structure UnpaywallData where
  is_oa : Bool := false
  best_oa_location : Option UnpaywallLocation := none
  deriving Repr, DecidableEq

/-- Embeds `_check_unpaywall(doi)` (`backend.py`, lines 486-498): `resp` is the
guarded `http.get` outcome, carrying the parsed JSON on success. -/
def check_unpaywall (resp : Except String UnpaywallData) : Option String :=
  match resp with
  | .error _ => none
  | .ok data =>
      let best_url :=
        match data.best_oa_location with
        | some best => best.url
        | none => ""
      if data.is_oa ∧ best_url ≠ "" then some best_url else none

/-- Python `hay.rfind(needle, 0, stop)`: the greatest index at which
`needle` occurs entirely within `hay[0:stop]` (`none` for `-1`). -/
def rfindSub (hay needle : List Char) (stop : Nat) : Option Nat :=
  (((List.range hay.length).filter fun i =>
      i + needle.length ≤ stop ∧ needle.isPrefixOf (hay.drop i)).getLast?)

/-- The anchor scan of `_check_publisher` over the DOI redirect page
(`backend.py`, lines 510-520): locate the first `.pdf` in the lowercased
body, back up to the nearest preceding `href="`, and return the quoted
URL. -/
def parse_publisher_html (html : String) : Option String :=
  let hay := html.toList
  let lowered := hay.map Char.toLower
  match findSub lowered ".pdf".toList with
  | none => none
  | some idx =>
      match rfindSub hay "href=\"".toList idx with
      | none => none
      | some start =>
          let start := start + "href=\"".length
          match findSubAux "\"".toList (hay.drop start) start with
          | none => none
          | some stop => some (String.mk ((hay.take stop).drop start))

/-- Embeds `_check_publisher(doi)` (`backend.py`, lines 500-520): `httpHtml` is
the guarded `http.get` outcome for the DOI redirect target. -/
def check_publisher (httpHtml : Except String String) : Option String :=
  match httpHtml with
  | .error _ => none
  | .ok html => parse_publisher_html html

/-- Embeds `OpenAccessInfo` (`backend.py`, lines 29-34). -/
structure OpenAccessInfo where
  is_open_access : Bool
  sources : List String
  download_url : Option String
  pmcid : Option String
  deriving Repr, DecidableEq

/-- Embeds `detect_open_access(article)` (`backend.py`, lines 428-456): the three
oracles are the guarded HTTP outcomes of the PMC probe, the Unpaywall
query, and the publisher-page fetch for this article.  The Python
truthiness tests `if pmcid_info:` (a returned dict is always
non-empty), `if unpaywall:` and `if publisher:` (`None` and `""` are
falsy) become the `some`-with-non-empty-string guards below, so an
empty publisher URL is skipped exactly as in the code. -/
def detect_open_access (pmcHttp : Except String String)
    (upHttp : Except String UnpaywallData) (pubHttp : Except String String)
    (article : Article) : OpenAccessInfo :=
  let step1 : List String × Option String × Option String :=
    match check_pmc pmcHttp with
    | some info => (["PMC"], some info.download_url, some info.pmcid)
    | none => ([], none, none)
  let sources := step1.1
  let download_url := step1.2.1
  let pmcid := step1.2.2
  let step2 : List String × Option String :=
    if download_url.isNone ∧ article.doi ≠ "" then
      match check_unpaywall upHttp with
      | some u =>
          if u ≠ "" then (sources ++ ["Unpaywall"], some u)
          else (sources, download_url)
      | none => (sources, download_url)
    else (sources, download_url)
  let sources := step2.1
  let download_url := step2.2
  let step3 : List String × Option String :=
    if download_url.isNone ∧ article.doi ≠ "" then
      match check_publisher pubHttp with
      | some u =>
          if u ≠ "" then (sources ++ ["Publisher"], some u)
          else (sources, download_url)
      | none => (sources, download_url)
    else (sources, download_url)
  { is_open_access := step3.2.isSome
    sources := step3.1
    download_url := step3.2
    pmcid := pmcid }

/-- Python `str.lower()` (ASCII case, sufficient for the inputs here). -/
def pyLower (s : String) : String :=
  String.mk (s.toList.map Char.toLower)

/-- Python `str.replace(" ", "")`. -/
def stripSpaces (s : String) : String :=
  String.mk (s.toList.filter (fun c => c ≠ ' '))

/-- The `lines` list built by `_generate_ris` (`backend.py`, lines
667-693); Python truthiness of `.get` on the always-present string
fields is emptiness. -/
def ris_lines (a : Article) : List String :=
  ["TY  - JOUR"]
    ++ (if a.title ≠ "" then ["TI  - " ++ a.title] else [])
    ++ a.authors.map (fun au => "AU  - " ++ au)
    ++ (if a.journal ≠ "" then ["T2  - " ++ a.journal] else [])
    ++ (if a.publicationDate ≠ "" then ["PY  - " ++ a.publicationDate] else [])
    ++ (if a.volume ≠ "" then ["VL  - " ++ a.volume] else [])
    ++ (if a.issue ≠ "" then ["IS  - " ++ a.issue] else [])
    ++ (if a.pages ≠ "" then ["SP  - " ++ a.pages] else [])
    ++ (if a.doi ≠ "" then ["DO  - " ++ a.doi] else [])
    ++ ["PMID - " ++ a.pmid]
    ++ (match a.abstract with
        | some ab => if ab ≠ "" then ["AB  - " ++ ab] else []
        | none => [])
    ++ a.meshTerms.map (fun kw => "KW  - " ++ kw)
    ++ ["UR  - " ++ a.url, "LA  - eng", "DB  - PubMed", "ER  - "]

/-- Embeds `_generate_ris(article)` (`backend.py`, line 694):
`"\n".join(lines) + "\n"`. -/
def generate_ris (a : Article) : String :=
  String.intercalate "\n" (ris_lines a) ++ "\n"

/-- The BibTeX cite key of `_generate_bibtex` (`backend.py`, lines
697-699): the whole first author name, spaces removed and lowercased,
then the year (publication date up to the first `-`), then the pmid.
Python indexes `authors[0]` and would raise on an empty author list; the
`headD` default is only reached there when the key is missing
altogether. -/
def bibtex_cite_key (a : Article) : String :=
  let first_author := pyLower (stripSpaces (a.authors.headD "unknown"))
  let year := String.mk (a.publicationDate.toList.takeWhile (fun c => c ≠ '-'))
  first_author ++ year ++ a.pmid

/-- The `lines` list built by `_generate_bibtex` (`backend.py`, lines
700-720); the embedded record always carries every field, so the `.get`
fallbacks for missing keys collapse. -/
def bibtex_lines (a : Article) : List String :=
  ["@article\x7b" ++ bibtex_cite_key a ++ ","]
    ++ ["  title = \x7b" ++ a.title ++ "\x7d,"]
    ++ (if a.authors ≠ [] then
          ["  author = \x7b" ++ String.intercalate " and " a.authors ++ "\x7d,"]
        else [])
    ++ (if a.journal ≠ "" then ["  journal = \x7b" ++ a.journal ++ "\x7d,"] else [])
    ++ (if a.publicationDate ≠ "" then
          ["  year = \x7b" ++ a.publicationDate ++ "\x7d,"]
        else [])
    ++ (if a.volume ≠ "" then ["  volume = \x7b" ++ a.volume ++ "\x7d,"] else [])
    ++ (if a.issue ≠ "" then ["  number = \x7b" ++ a.issue ++ "\x7d,"] else [])
    ++ (if a.pages ≠ "" then ["  pages = \x7b" ++ a.pages ++ "\x7d,"] else [])
    ++ (if a.doi ≠ "" then ["  doi = \x7b" ++ a.doi ++ "\x7d,"] else [])
    ++ ["  pmid = \x7b" ++ a.pmid ++ "\x7d,"]
    ++ ["  url = \x7bhttps://pubmed.ncbi.nlm.nih.gov/" ++ a.pmid ++ "/\x7d,"]
    ++ (match a.abstract with
        | some ab => if ab ≠ "" then ["  abstract = \x7b" ++ ab ++ "\x7d,"] else []
        | none => [])
    ++ ["\x7d"]

/-- Embeds `_generate_bibtex(article)` (`backend.py`, line 721):
`"\n".join(lines) + "\n"`. -/
def generate_bibtex (a : Article) : String :=
  String.intercalate "\n" (bibtex_lines a) ++ "\n"

/-- One `exported_papers` record of the EndNote export index
(`backend.py`, lines 650-655). -/
structure ExportRecord where
  pmid : String
  title : String
  ris : String
  bibtex : String
  exported : String
  deriving Repr, DecidableEq

/-- The `stats` block of the EndNote export index. -/
structure EndnoteStats where
  totalExports : Nat := 0
  risFiles : Nat := 0
  bibtexFiles : Nat := 0
  lastExport : Option String := none
  deriving Repr, DecidableEq

/-- The EndNote `index.json` contents (`backend.py`, lines 644-649). -/
structure EndnoteIndex where
  exported_papers : List (String × ExportRecord) := []
  stats : EndnoteStats := {}
  deriving Repr

/-- Embeds `export_endnote(article)` (`backend.py`, lines 633-665), restricted to
its effect on the export index: `none` models the
`{"success": False, "error": "EndNote export disabled"}` early return,
`some` the updated index after the RIS/BibTeX files are written. -/
def export_endnote (endnote_export_enabled : Bool) (endnote_dir : String)
    (nowStr : String) (index : EndnoteIndex) (a : Article) :
    Option EndnoteIndex :=
  if !endnote_export_enabled then none
  else
    let ris_path := endnote_dir ++ "/" ++ a.pmid ++ ".ris"
    let bib_path := endnote_dir ++ "/" ++ a.pmid ++ ".bib"
    let papers := dictInsert index.exported_papers a.pmid
      ⟨a.pmid, a.title, ris_path, bib_path, nowStr⟩
    some
      { exported_papers := papers
        stats :=
          { totalExports := papers.length
            risFiles := papers.length
            bibtexFiles := papers.length
            lastExport := some nowStr } }

/-- One `fulltext_papers` record (`backend.py`, lines 538-547). -/
structure FulltextRecord where
  pmid : String
  downloadUrl : String
  filePath : String
  fileSize : Nat
  downloaded : String
  timestamp : Nat
  deriving Repr, DecidableEq

/-- The `stats` block of the fulltext index. -/
structure FulltextStats where
  totalPDFs : Nat := 0
  totalSize : Nat := 0
  lastCleanup : Option String := none
  deriving Repr, DecidableEq

/-- The fulltext `index.json` contents (`backend.py`, lines 554-560). -/
structure FulltextIndex where
  fulltext_papers : List (String × FulltextRecord) := []
  stats : FulltextStats := {}
  deriving Repr

/-- The fulltext cache directory: PDF files (name, bytes) plus the index. -/
structure FulltextStore where
  files : List (String × List Nat) := []
  index : FulltextIndex := {}
  deriving Repr

/-- Embeds `_update_fulltext_index(pmid, info)` (`backend.py`, lines 562-569). -/
def update_fulltext_index (index : FulltextIndex) (pmid : String)
    (info : FulltextRecord) (nowStr : String) : FulltextIndex :=
  let papers := dictInsert index.fulltext_papers pmid info
  { fulltext_papers := papers
    stats :=
      { totalPDFs := papers.length
        totalSize := (papers.map (fun p => p.2.fileSize)).sum
        lastCleanup := some nowStr } }

/-- Outcome of `download_pdf` (`backend.py`, lines 522-549). -/
inductive PdfResult where
  | failure (error : String)
  | ok (filePath : String) (fileSize : Nat)
  deriving Repr, DecidableEq

/-- Embeds `download_pdf(pmid, url)` (`backend.py`, lines 522-549): `httpContent`
is the guarded `http.get` outcome (the response body as bytes); the
returned store is the fulltext directory after the call. -/
def download_pdf (max_pdf_size_bytes : Nat) (fulltext_dir : String)
    (nowStr : String) (now_ms : Nat) (store : FulltextStore)
    (pmid url : String) (httpContent : Except String (List Nat)) :
    PdfResult × FulltextStore :=
  if url = "" then (.failure "No download URL", store)
  else
    match httpContent with
    | .error exc => (.failure exc, store)
    | .ok content =>
        if content.length > max_pdf_size_bytes then
          (.failure "PDF too large", store)
        else
          let name := pmid ++ ".pdf"
          let info : FulltextRecord :=
            ⟨pmid, url, name, content.length, nowStr, now_ms⟩
          (.ok (fulltext_dir ++ "/" ++ name) content.length,
           { files := dictInsert store.files name content
             index := update_fulltext_index store.index pmid info nowStr })

/-- Embeds `PubMedMCPClient.get_details(pmids)` (`client.py`, lines 107-122),
with `include_full_text = False`: validates the cardinality cap, then
runs the fetch pipeline.  Raised `ValueError`s are `Except.error`. -/
def get_details (cache : String → Option Article)
    (net : String → Option RawSummary) (abstract_mode : String)
    (fullAbs : String → Except String String) (pmid_list : List String) :
    Except String (List Article × Nat) :=
  if pmid_list.length > 20 then
    .error "A maximum of 20 PMIDs can be requested"
  else
    let articles := fetch_article_details cache net abstract_mode fullAbs pmid_list
    .ok (articles, articles.length)

/-- Embeds `PubMedMCPClient.batch_query(pmids)` (`client.py`, lines 205-220),
restricted to the fetched article list and the metadata counters (the
`format_for_llm` projection of the same list is not modelled). -/
def batch_query (cache : String → Option Article)
    (net : String → Option RawSummary) (abstract_mode : String)
    (fullAbs : String → Except String String) (pmids : List String) :
    Except String (List Article × Nat × Nat) :=
  if pmids.length > 20 then
    .error "Batch query supports up to 20 PMIDs"
  else
    let articles := fetch_article_details cache net abstract_mode fullAbs pmids
    .ok (articles, pmids.length, articles.length)

/-- Embeds `PubMedMCPConfig` (`config.py`, lines 11-53); paths are strings. -/
structure PubMedMCPConfig where
  pubmed_api_key : Option String
  pubmed_email : Option String
  pubmed_tool_name : String
  abstract_mode : String
  abstract_max_chars : Int
  fulltext_mode : String
  fulltext_enabled : Bool
  fulltext_auto_download : Bool
  endnote_export_enabled : Bool
  rate_limit_delay_ms : Int
  request_timeout_ms : Int
  cache_dir : String
  paper_cache_dir : String
  fulltext_cache_dir : String
  endnote_cache_dir : String
  cache_version : String
  paper_cache_expiry_ms : Int
  fulltext_cache_expiry_ms : Int
  max_pdf_size_bytes : Int
  cache_timeout_ms : Int
  cache_max_size : Int
  proxy_enabled : Bool
  http_proxy : Option String
  https_proxy : Option String
  proxy_username : Option String
  proxy_password : Option String
  proxy_timeout : Int
  proxy_retry_count : Int
  deriving Repr, DecidableEq

/-- Python `int(s)`: optional surrounding whitespace, an optional sign,
then at least one decimal digit; anything else raises `ValueError`
(underscore grouping is not exercised here). -/
def pyInt (s : String) : Option Int :=
  let chars := (s.toList.dropWhile (fun c => c = ' ')).reverse
  let chars := (chars.dropWhile (fun c => c = ' ')).reverse
  match chars with
  | [] => none
  | c :: rest =>
      let digits := if c = '-' ∨ c = '+' then rest else c :: rest
      if digits ≠ [] ∧ digits.all (fun d => d.isDigit) then
        let n : Int := digits.foldl (fun acc d => acc * 10 + (d.toNat - 48)) 0
        some (if c = '-' then -n else n)
      else none

/-- Embeds `os.getenv(name, default)` over an environment mapping. -/
def getenvD (env : String → Option String) (name default : String) : String :=
  (env name).getD default

/-- Embeds `_bool_env(name, default)` (`config.py`, lines 59-61). -/
def bool_env (env : String → Option String) (name : String)
    (default : String) : Bool :=
  let value := pyLower (getenvD env name default)
  value = "1" ∨ value = "true" ∨ value = "yes" ∨ value = "enabled" ∨
    value = "on"

/-- Embeds `int(os.getenv(name, default))`: the unguarded conversions of
`from_env`; a set but unparsable variable raises. -/
def int_env (env : String → Option String) (name default : String) :
    Except String Int :=
  match pyInt (getenvD env name default) with
  | some n => .ok n
  | none =>
      .error ("invalid literal for int() with base 10: " ++
        getenvD env name default)

/-- Python `a or b` over optional strings (`None` and `""` are falsy). -/
def pyOrStr (a b : Option String) : Option String :=
  match a with
  | some s => if s = "" then b else some s
  | none => b

/-- Embeds `PubMedMCPConfig.from_env(base_path)` (`config.py`, lines 55-105):
`env` is the process environment; a raised `ValueError` from an `int`
conversion surfaces as `Except.error`. -/
def from_env (env : String → Option String) (base_dir : String) :
    Except String PubMedMCPConfig := do
  let cache_dir := getenvD env "PUBMED_MCP_CACHE_DIR" (base_dir ++ "/cache")
  let abstract_mode0 := pyLower (getenvD env "ABSTRACT_MODE" "quick")
  let abstract_mode :=
    if abstract_mode0 ≠ "quick" ∧ abstract_mode0 ≠ "deep" then "quick"
    else abstract_mode0
  let fulltext_mode := pyLower (getenvD env "FULLTEXT_MODE" "disabled")
  let fulltext_enabled := fulltext_mode = "enabled" ∨ fulltext_mode = "auto"
  let fulltext_auto_download := fulltext_mode = "auto"
  let endnote_export_enabled := bool_env env "ENDNOTE_EXPORT" "enabled"
  let rate_limit_delay_ms ← int_env env "PUBMED_RATE_LIMIT_DELAY_MS" "334"
  let request_timeout_ms ← int_env env "PUBMED_REQUEST_TIMEOUT_MS" "30000"
  let paper_cache_expiry_ms ←
    int_env env "PUBMED_PAPER_CACHE_EXPIRY_MS" "2592000000"
  let fulltext_cache_expiry_ms ←
    int_env env "PUBMED_FULLTEXT_CACHE_EXPIRY_MS" "7776000000"
  let max_pdf_size_bytes ← int_env env "PUBMED_MAX_PDF_SIZE_BYTES" "52428800"
  let cache_timeout_ms ← int_env env "PUBMED_MEMORY_CACHE_TIMEOUT_MS" "300000"
  let cache_max_size ← int_env env "PUBMED_MEMORY_CACHE_MAX_SIZE" "100"
  let proxy_timeout ← int_env env "PROXY_TIMEOUT" "30"
  let proxy_retry_count ← int_env env "PROXY_RETRY_COUNT" "3"
  .ok
    { pubmed_api_key := env "PUBMED_API_KEY"
      pubmed_email := env "PUBMED_EMAIL"
      pubmed_tool_name := getenvD env "PUBMED_TOOL_NAME" "pubmed_agent"
      abstract_mode := abstract_mode
      abstract_max_chars := if abstract_mode = "deep" then 6000 else 1500
      fulltext_mode := fulltext_mode
      fulltext_enabled := fulltext_enabled
      fulltext_auto_download := fulltext_auto_download
      endnote_export_enabled := endnote_export_enabled
      rate_limit_delay_ms := rate_limit_delay_ms
      request_timeout_ms := request_timeout_ms
      cache_dir := cache_dir
      paper_cache_dir := cache_dir ++ "/papers"
      fulltext_cache_dir := cache_dir ++ "/fulltext"
      endnote_cache_dir := cache_dir ++ "/endnote"
      cache_version := getenvD env "PUBMED_CACHE_VERSION" "1.0"
      paper_cache_expiry_ms := paper_cache_expiry_ms
      fulltext_cache_expiry_ms := fulltext_cache_expiry_ms
      max_pdf_size_bytes := max_pdf_size_bytes
      cache_timeout_ms := cache_timeout_ms
      cache_max_size := cache_max_size
      proxy_enabled := bool_env env "PROXY_ENABLED" "disabled"
      http_proxy := pyOrStr (env "HTTP_PROXY") (env "http_proxy")
      https_proxy := pyOrStr (env "HTTPS_PROXY") (env "https_proxy")
      proxy_username := env "PROXY_USERNAME"
      proxy_password := env "PROXY_PASSWORD"
      proxy_timeout := proxy_timeout
      proxy_retry_count := proxy_retry_count }

/-- A sequence of `MemoryCache.set` calls: one insertion per
`(key, now_ms)` pair, the stored value given by `vals`. -/
def runSets {α : Type} (vals : String → α) (c : MemoryCache α)
    (entries : List (String × Nat)) : MemoryCache α :=
  entries.foldl (fun c kt => c.set kt.1 (vals kt.1) kt.2) c

/-- The article of the spec's citation-export example:
`{pmid:"12345678", title:"X", authors:["Doe J"], journal:"Y",
publicationDate:"2023"}`, with the URL `fetch_article_details` would
attach. -/
def artDoe : Article :=
  { pmid := "12345678"
    title := "X"
    authors := ["Doe J"]
    journal := "Y"
    publicationDate := "2023"
    url := "https://pubmed.ncbi.nlm.nih.gov/12345678/" }

/-- The environment variables `from_env` feeds to Python's `int()`
without a guard (`config.py`, lines 86-104). -/
def numericEnvNames : List String :=
  ["PUBMED_RATE_LIMIT_DELAY_MS", "PUBMED_REQUEST_TIMEOUT_MS",
   "PUBMED_PAPER_CACHE_EXPIRY_MS", "PUBMED_FULLTEXT_CACHE_EXPIRY_MS",
   "PUBMED_MAX_PDF_SIZE_BYTES", "PUBMED_MEMORY_CACHE_TIMEOUT_MS",
   "PUBMED_MEMORY_CACHE_MAX_SIZE", "PROXY_TIMEOUT", "PROXY_RETRY_COUNT"]

/-! ### Association-list lemmas -/

theorem lookupKey_nil {β : Type} (k : String) :
    lookupKey ([] : List (String × β)) k = none := rfl

theorem lookupKey_cons {β : Type} (k2 : String) (v : β)
    (l : List (String × β)) (k : String) :
    lookupKey ((k2, v) :: l) k = if k2 = k then some v else lookupKey l k := by
  by_cases h : k2 = k <;> simp [lookupKey, List.find?, h]

theorem lookupKey_append_of_none {β : Type} {l1 : List (String × β)}
    {k : String} (l2 : List (String × β)) (h : lookupKey l1 k = none) :
    lookupKey (l1 ++ l2) k = lookupKey l2 k := by
  induction l1 with
  | nil => rfl
  | cons p rest ih =>
      obtain ⟨k2, v⟩ := p
      rw [lookupKey_cons] at h
      by_cases hk : k2 = k
      · simp [hk] at h
      · rw [if_neg hk] at h
        simpa [lookupKey_cons, hk] using ih h

theorem lookupKey_append_of_some {β : Type} {l1 : List (String × β)}
    {k : String} {v : β} (l2 : List (String × β))
    (h : lookupKey l1 k = some v) :
    lookupKey (l1 ++ l2) k = some v := by
  induction l1 with
  | nil => simp [lookupKey_nil] at h
  | cons p rest ih =>
      obtain ⟨k2, w⟩ := p
      rw [lookupKey_cons] at h
      by_cases hk : k2 = k
      · rw [if_pos hk] at h
        simpa [lookupKey_cons, hk] using h
      · rw [if_neg hk] at h
        simpa [lookupKey_cons, hk] using ih h

theorem dictInsert_of_lookup_none {β : Type} {l : List (String × β)}
    {k : String} (v : β) (h : lookupKey l k = none) :
    dictInsert l k v = l ++ [(k, v)] := by
  induction l with
  | nil => rfl
  | cons p rest ih =>
      obtain ⟨k2, w⟩ := p
      rw [lookupKey_cons] at h
      by_cases hk : k2 = k
      · simp [hk] at h
      · rw [if_neg hk] at h
        simp [dictInsert, hk, ih h]

theorem lookupKey_dictInsert_self {β : Type} (l : List (String × β))
    (k : String) (v : β) : lookupKey (dictInsert l k v) k = some v := by
  induction l with
  | nil => simp [dictInsert, lookupKey_cons]
  | cons p rest ih =>
      obtain ⟨k2, w⟩ := p
      by_cases hk : k2 = k
      · simp [dictInsert, hk, lookupKey_cons]
      · simp [dictInsert, hk, lookupKey_cons, ih]

theorem lookupKey_dictInsert_ne {β : Type} (l : List (String × β))
    {k k' : String} (v : β) (h : k' ≠ k) :
    lookupKey (dictInsert l k v) k' = lookupKey l k' := by
  have hne : ¬ k = k' := fun hh => h hh.symm
  induction l with
  | nil => simp only [dictInsert, lookupKey_cons, if_neg hne, lookupKey_nil]
  | cons p rest ih =>
      obtain ⟨k2, w⟩ := p
      by_cases hk : k2 = k
      · have hk2 : ¬ k2 = k' := fun hh => h (hh.symm.trans hk)
        simp only [dictInsert, if_pos hk, lookupKey_cons, if_neg hk2]
      · simp only [dictInsert, if_neg hk, lookupKey_cons, ih]

theorem dictPop_cons_self {β : Type} {k2 k : String} (v : β)
    (l : List (String × β)) (h : k2 = k) : dictPop ((k2, v) :: l) k = l := by
  simp [dictPop, List.eraseP_cons, h]

theorem dictPop_cons_ne {β : Type} {k2 k : String} (v : β)
    (l : List (String × β)) (h : ¬ k2 = k) :
    dictPop ((k2, v) :: l) k = (k2, v) :: dictPop l k := by
  simp [dictPop, List.eraseP_cons, h]

theorem lookupKey_eq_none_of_not_mem {β : Type} {l : List (String × β)}
    {k : String} (h : k ∉ l.map Prod.fst) : lookupKey l k = none := by
  induction l with
  | nil => rfl
  | cons p rest ih =>
      simp only [List.map_cons, List.mem_cons, not_or] at h
      rw [lookupKey_cons p.1 p.2 rest k, if_neg (fun hh => h.1 hh.symm)]
      exact ih h.2

theorem lookupKey_dictPop_self {β : Type} {l : List (String × β)}
    (k : String) (hnd : (l.map Prod.fst).Nodup) :
    lookupKey (dictPop l k) k = none := by
  induction l with
  | nil => rfl
  | cons p rest ih =>
      obtain ⟨k2, w⟩ := p
      simp only [List.map_cons, List.nodup_cons] at hnd
      by_cases hk : k2 = k
      · rw [dictPop_cons_self w rest hk]
        subst hk
        exact lookupKey_eq_none_of_not_mem hnd.1
      · rw [dictPop_cons_ne w rest hk, lookupKey_cons, if_neg hk]
        exact ih hnd.2

theorem oldestGo_of_lt {α : Type} (k : String) (e : MemEntry α)
    (l : List (String × MemEntry α)) (h : ∀ x ∈ l, e.ts < x.2.ts) :
    oldestGo k e l = k := by
  induction l with
  | nil => rfl
  | cons p rest ih =>
      obtain ⟨k2, e2⟩ := p
      have h1 : e.ts < e2.ts := by simpa using h (k2, e2) (List.mem_cons_self _ _)
      have h2 : ¬ e2.ts < e.ts := by omega
      simp only [oldestGo, if_neg h2]
      exact ih (fun x hx => h x (List.mem_cons_of_mem _ hx))

theorem set_of_length_lt {α : Type} (c : MemoryCache α) (k : String) (v : α)
    (now : Nat) (h : c.data.length < c.max_size) :
    c.set k v now =
      { c with
          data := dictInsert c.data k ⟨v, now⟩
          stats := { c.stats with sets := c.stats.sets + 1 } } := by
  unfold MemoryCache.set
  rw [if_neg (by omega)]

theorem runSets_fill {α : Type} (vals : String → α)
    (entries : List (String × Nat)) (c : MemoryCache α)
    (hcap : c.data.length + entries.length ≤ c.max_size)
    (hfresh : ∀ p ∈ entries, lookupKey c.data p.1 = none)
    (hnodup : (entries.map Prod.fst).Nodup) :
    runSets vals c entries =
      { c with
          data := c.data ++
            entries.map (fun kt => (kt.1, (⟨vals kt.1, kt.2⟩ : MemEntry α)))
          stats := { c.stats with sets := c.stats.sets + entries.length } } := by
  induction entries generalizing c with
  | nil =>
      obtain ⟨tm, ms, d, ⟨h1, h2, h3, h4⟩⟩ := c
      simp [runSets]
  | cons kt rest ih =>
      have hlt : c.data.length < c.max_size := by
        simp only [List.length_cons] at hcap; omega
      have hfresh0 : lookupKey c.data kt.1 = none :=
        hfresh kt (List.mem_cons_self _ _)
      have hstep : runSets vals c (kt :: rest) =
          runSets vals (c.set kt.1 (vals kt.1) kt.2) rest := rfl
      rw [hstep, set_of_length_lt c _ _ _ hlt,
        dictInsert_of_lookup_none _ hfresh0]
      rw [List.map_cons] at hnodup
      have hnd := List.nodup_cons.mp hnodup
      have ihr := ih
        (c := { c with
                  data := c.data ++ [(kt.1, ⟨vals kt.1, kt.2⟩)]
                  stats := { c.stats with sets := c.stats.sets + 1 } })
        (by simp only [List.length_append, List.length_cons,
              List.length_nil] at hcap ⊢; omega)
        (by
          intro p hp
          have h1 := hfresh p (List.mem_cons_of_mem _ hp)
          have h2 : ¬ kt.1 = p.1 := by
            intro hh
            exact hnd.1 (hh ▸ List.mem_map_of_mem Prod.fst hp)
          rw [lookupKey_append_of_none _ h1, lookupKey_cons, if_neg h2,
            lookupKey_nil])
        hnd.2
      rw [ihr]
      have harith : c.stats.sets + 1 + rest.length =
          c.stats.sets + (kt :: rest).length := by
        simp only [List.length_cons]; omega
      simp only [List.append_assoc, List.singleton_append, List.map_cons,
        harith]

theorem runSets_evict_last {α : Type} (vals : String → α) (tm msz : Nat)
    (front : List (String × Nat)) (lastE : String × Nat)
    (hmsz : 1 ≤ msz) (hlen : front.length = msz)
    (hnodup : ((front ++ [lastE]).map Prod.fst).Nodup)
    (hmono : ((front ++ [lastE]).map Prod.snd).Pairwise (· < ·)) :
    (runSets vals ⟨tm, msz, [], {}⟩ (front ++ [lastE])).data.map Prod.fst =
      ((front ++ [lastE]).map Prod.fst).tail ∧
    (runSets vals ⟨tm, msz, [], {}⟩ (front ++ [lastE])).stats =
      ⟨0, 0, msz + 1, 1⟩ := by
  simp only [List.map_append, List.map_cons, List.map_nil] at hnodup hmono
  have hndf : (front.map Prod.fst).Nodup :=
    (List.nodup_append.mp hnodup).1
  have hdisj : lastE.1 ∉ front.map Prod.fst := by
    intro hmem
    exact (List.nodup_append.mp hnodup).2.2 hmem (List.mem_singleton_self _)
  have hsplit : runSets vals (⟨tm, msz, [], {}⟩ : MemoryCache α)
      (front ++ [lastE]) =
      (runSets vals ⟨tm, msz, [], {}⟩ front).set lastE.1 (vals lastE.1)
        lastE.2 := by
    simp [runSets, List.foldl_append]
  have hfill := runSets_fill vals front (⟨tm, msz, [], {}⟩ : MemoryCache α)
    (by simp [hlen]) (by intro p _; rfl) hndf
  rw [hsplit, hfill]
  cases front with
  | nil => simp at hlen; omega
  | cons f0 fr =>
      have hts : ∀ x ∈ fr.map
          (fun kt => (kt.1, (⟨vals kt.1, kt.2⟩ : MemEntry α))),
          (⟨vals f0.1, f0.2⟩ : MemEntry α).ts < x.2.ts := by
        intro x hx
        obtain ⟨kt, hkt, rfl⟩ := List.mem_map.mp hx
        have := (List.pairwise_cons.mp hmono).1 kt.2
          (by
            refine List.mem_append.mpr (Or.inl ?_)
            exact List.mem_map_of_mem Prod.snd hkt)
        simpa using this
      have holdest : oldestKey
          ((f0.1, (⟨vals f0.1, f0.2⟩ : MemEntry α)) ::
            fr.map (fun kt => (kt.1, (⟨vals kt.1, kt.2⟩ : MemEntry α)))) =
          some f0.1 := by
        simp only [oldestKey]
        rw [oldestGo_of_lt _ _ _ hts]
      have hfresh2 : lookupKey
          (fr.map (fun kt => (kt.1, (⟨vals kt.1, kt.2⟩ : MemEntry α))))
          lastE.1 = none := by
        apply lookupKey_eq_none_of_not_mem
        intro hmem
        apply hdisj
        simp only [List.map_map] at hmem
        simp only [List.map_cons, List.mem_cons]
        right
        simpa using hmem
      have hlen' : fr.length + 1 = msz := by simpa using hlen
      unfold MemoryCache.set
      rw [if_pos (by
        simp only [List.nil_append, List.length_map, List.length_cons]
        omega)]
      simp only [List.nil_append, List.map_cons]
      rw [holdest]
      simp only [dictPop_cons_self _ _ rfl]
      rw [dictInsert_of_lookup_none _ hfresh2]
      constructor
      · simp [List.map_map, Function.comp]
      · simp [MemoryCacheStats.mk.injEq, hlen']

theorem get_hit {α : Type} (c : MemoryCache α) (k : String) (now t : Nat)
    (v : α) (hlk : lookupKey c.data k = some ⟨v, t⟩)
    (hfresh : ¬ now - t > c.timeout_ms) :
    c.get k now =
      (some v,
       { c with stats := { c.stats with hits := c.stats.hits + 1 } }) := by
  unfold MemoryCache.get
  rw [hlk]
  simp only [if_neg hfresh]

theorem get_absent {α : Type} (c : MemoryCache α) (k : String) (now : Nat)
    (hlk : lookupKey c.data k = none) :
    c.get k now =
      (none,
       { c with stats := { c.stats with misses := c.stats.misses + 1 } }) := by
  unfold MemoryCache.get
  rw [hlk]

theorem get_expired {α : Type} (c : MemoryCache α) (k : String) (now t : Nat)
    (v : α) (hlk : lookupKey c.data k = some ⟨v, t⟩)
    (hexp : now - t > c.timeout_ms) :
    c.get k now =
      (none,
       { c with
           data := dictPop c.data k
           stats := { c.stats with misses := c.stats.misses + 1 } }) := by
  unfold MemoryCache.get
  rw [hlk]
  simp only [if_pos hexp]

theorem oldestGo_mem {α : Type} (k : String) (e : MemEntry α)
    (l : List (String × MemEntry α)) :
    oldestGo k e l ∈ k :: l.map Prod.fst := by
  induction l generalizing k e with
  | nil => simp [oldestGo]
  | cons p rest ih =>
      obtain ⟨k2, e2⟩ := p
      by_cases h : e2.ts < e.ts
      · simp only [oldestGo, if_pos h]
        have := ih k2 e2
        simp only [List.map_cons, List.mem_cons] at this ⊢
        tauto
      · simp only [oldestGo, if_neg h]
        have := ih k e
        simp only [List.map_cons, List.mem_cons] at this ⊢
        tauto

theorem oldestKey_mem {α : Type} {l : List (String × MemEntry α)}
    {j : String} (h : oldestKey l = some j) : j ∈ l.map Prod.fst := by
  cases l with
  | nil => simp [oldestKey] at h
  | cons p rest =>
      obtain ⟨k, e⟩ := p
      simp only [oldestKey, Option.some.injEq] at h
      have := oldestGo_mem k e rest
      rw [h] at this
      simpa using this

theorem dictPop_length_of_mem {β : Type} {l : List (String × β)}
    {k : String} (h : k ∈ l.map Prod.fst) :
    (dictPop l k).length + 1 = l.length := by
  induction l with
  | nil => simp at h
  | cons p rest ih =>
      obtain ⟨k2, w⟩ := p
      by_cases hk : k2 = k
      · rw [dictPop_cons_self _ _ hk]
        simp
      · have hmem : k ∈ rest.map Prod.fst := by
          simp only [List.map_cons, List.mem_cons] at h
          rcases h with h | h
          · exact absurd h.symm hk
          · exact h
        rw [dictPop_cons_ne _ _ hk]
        simp [← ih hmem]

theorem lookupKey_dictPop_ne {β : Type} (l : List (String × β))
    {j k : String} (h : j ≠ k) :
    lookupKey (dictPop l j) k = lookupKey l k := by
  induction l with
  | nil => rfl
  | cons p rest ih =>
      obtain ⟨k2, w⟩ := p
      by_cases hk : k2 = j
      · rw [dictPop_cons_self _ _ hk, lookupKey_cons,
          if_neg (fun hh => h ((hk.symm.trans hh)))]
      · rw [dictPop_cons_ne _ _ hk, lookupKey_cons, lookupKey_cons, ih]

theorem dictInsert_length_of_lookup_some {β : Type} {l : List (String × β)}
    {k : String} {e : β} (v : β) (h : lookupKey l k = some e) :
    (dictInsert l k v).length = l.length := by
  induction l with
  | nil => simp [lookupKey_nil] at h
  | cons p rest ih =>
      obtain ⟨k2, w⟩ := p
      by_cases hk : k2 = k
      · simp [dictInsert, hk]
      · rw [lookupKey_cons, if_neg hk] at h
        simp [dictInsert, hk, ih h]

theorem dictInsert_length_le {β : Type} (l : List (String × β))
    (k : String) (v : β) : (dictInsert l k v).length ≤ l.length + 1 := by
  induction l with
  | nil => simp [dictInsert]
  | cons p rest ih =>
      obtain ⟨k2, w⟩ := p
      by_cases hk : k2 = k
      · simp [dictInsert, hk]
      · simp only [dictInsert, if_neg hk, List.length_cons]
        omega

theorem set_full_evicts {α : Type} (c : MemoryCache α) (k : String) (v : α)
    (now : Nat) (hfull : c.data.length ≥ c.max_size) {j : String}
    (hold : oldestKey c.data = some j) :
    c.set k v now =
      { c with
          data := dictInsert (dictPop c.data j) k ⟨v, now⟩
          stats :=
            { c.stats with
                sets := c.stats.sets + 1
                evictions := c.stats.evictions + 1 } } := by
  unfold MemoryCache.set
  rw [if_pos hfull, hold]

/-- C3: inserting `maxSize + 1` distinct keys with increasing timestamps
into an empty memory cache evicts exactly one entry, namely the key with
the oldest insertion timestamp (the surviving keys are exactly the input
keys minus the first); a hit leaves the stored data (hence every
timestamp) untouched and bumps only the hit counter, while reads of
absent keys and of entries older than the TTL bump only the miss
counter (the expired read also removes the entry). -/
theorem c3_eviction_by_insertion_time_and_counters {α : Type}
    (vals : String → α) (tm msz : Nat) (front : List (String × Nat))
    (lastE : String × Nat) (hmsz : 1 ≤ msz) (hlen : front.length = msz)
    (hnodup : ((front ++ [lastE]).map Prod.fst).Nodup)
    (hmono : ((front ++ [lastE]).map Prod.snd).Pairwise (· < ·)) :
    ((runSets vals ⟨tm, msz, [], {}⟩ (front ++ [lastE])).data.map Prod.fst =
        ((front ++ [lastE]).map Prod.fst).tail ∧
      (runSets vals ⟨tm, msz, [], {}⟩ (front ++ [lastE])).stats =
        ⟨0, 0, msz + 1, 1⟩) ∧
    (∀ (c : MemoryCache α) (k : String) (now t : Nat) (v : α),
        lookupKey c.data k = some ⟨v, t⟩ → ¬ now - t > c.timeout_ms →
        (c.get k now).1 = some v ∧ (c.get k now).2.data = c.data ∧
        (c.get k now).2.stats.hits = c.stats.hits + 1 ∧
        (c.get k now).2.stats.misses = c.stats.misses) ∧
    (∀ (c : MemoryCache α) (k : String) (now : Nat),
        lookupKey c.data k = none →
        (c.get k now).1 = none ∧ (c.get k now).2.data = c.data ∧
        (c.get k now).2.stats.hits = c.stats.hits ∧
        (c.get k now).2.stats.misses = c.stats.misses + 1) ∧
    (∀ (c : MemoryCache α) (k : String) (now t : Nat) (v : α),
        lookupKey c.data k = some ⟨v, t⟩ → now - t > c.timeout_ms →
        (c.get k now).1 = none ∧
        (c.get k now).2.data = dictPop c.data k ∧
        (c.get k now).2.stats.hits = c.stats.hits ∧
        (c.get k now).2.stats.misses = c.stats.misses + 1) := by
  refine ⟨runSets_evict_last vals tm msz front lastE hmsz hlen hnodup hmono,
    ?_, ?_, ?_⟩
  · intro c k now t v hlk hfresh
    rw [get_hit c k now t v hlk hfresh]
    exact ⟨rfl, rfl, rfl, rfl⟩
  · intro c k now hlk
    rw [get_absent c k now hlk]
    exact ⟨rfl, rfl, rfl, rfl⟩
  · intro c k now t v hlk hexp
    rw [get_expired c k now t v hlk hexp]
    exact ⟨rfl, rfl, rfl, rfl⟩

/-- Witness for C3 at a concrete run: capacity 2, keys `a`, `b`, `c`
inserted at times 0, 1, 2, plus a concrete hit, absent read and expired
read. -/
theorem c3_witness :
    ((runSets (fun _ => (0 : Nat)) ⟨10, 2, [], {}⟩
        [("a", 0), ("b", 1), ("c", 2)]).data.map Prod.fst = ["b", "c"] ∧
      (runSets (fun _ => (0 : Nat)) ⟨10, 2, [], {}⟩
        [("a", 0), ("b", 1), ("c", 2)]).stats = ⟨0, 0, 3, 1⟩) := by
  have h := c3_eviction_by_insertion_time_and_counters (α := Nat)
    (fun _ => 0) 10 2 [("a", 0), ("b", 1)] ("c", 2)
    (by decide) (by decide) (by decide) (by decide)
  exact ⟨by simpa using h.1.1, by simpa using h.1.2⟩

/-- C4: an entry stored at `t0` under expiry window `E ≥ 1` is a hit at
`t0+E-1` and a miss (with removal) at `t0+E+1`, both for the memory
cache (`MemoryCache.get`) and for the persisted article cache
(`_read_article_cache`). -/
theorem c4_ttl_boundary (E t0 : Nat) (hE : 1 ≤ E)
    (c : MemoryCache Nat) (k : String) (v : Nat)
    (hlk : lookupKey c.data k = some ⟨v, t0⟩) (htm : c.timeout_ms = E)
    (entry : PersistedArticleRecord) (hts : entry.timestamp = t0) :
    (c.get k (t0 + E - 1)).1 = some v ∧
    ((c.get k (t0 + E + 1)).1 = none ∧
      (c.get k (t0 + E + 1)).2.data = dictPop c.data k) ∧
    read_article_cache (some entry) (t0 + E - 1) E =
      (some entry.data, some entry) ∧
    read_article_cache (some entry) (t0 + E + 1) E = (none, none) := by
  refine ⟨?_, ⟨?_, ?_⟩, ?_, ?_⟩
  · rw [get_hit c k (t0 + E - 1) t0 v hlk (by omega)]
  · rw [get_expired c k (t0 + E + 1) t0 v hlk (by omega)]
  · rw [get_expired c k (t0 + E + 1) t0 v hlk (by omega)]
  · have hred : read_article_cache (some entry) (t0 + E - 1) E =
        if t0 + E - 1 - entry.timestamp > E then (none, none)
        else (some entry.data, some entry) := rfl
    rw [hred, hts, if_neg (by omega)]
  · have hred : read_article_cache (some entry) (t0 + E + 1) E =
        if t0 + E + 1 - entry.timestamp > E then (none, none)
        else (some entry.data, some entry) := rfl
    rw [hred, hts, if_pos (by omega)]

/-- Witness for C4: expiry 100, entry stored at 1000, read back at 1099
and at 1101. -/
theorem c4_witness :
    (((⟨100, 5, [("k", ⟨7, 1000⟩)], {}⟩ : MemoryCache Nat).get "k" 1099).1 =
        some 7 ∧
      ((((⟨100, 5, [("k", ⟨7, 1000⟩)], {}⟩ : MemoryCache Nat).get
          "k" 1101).1 = none) ∧
        (((⟨100, 5, [("k", ⟨7, 1000⟩)], {}⟩ : MemoryCache Nat).get
          "k" 1101).2.data =
          dictPop [("k", ⟨7, 1000⟩)] "k")) ∧
      read_article_cache (some ⟨"1.0", "p", 1000, artDoe⟩) 1099 100 =
        (some artDoe, some ⟨"1.0", "p", 1000, artDoe⟩) ∧
      read_article_cache (some ⟨"1.0", "p", 1000, artDoe⟩) 1101 100 =
        (none, none)) := by
  have h := c4_ttl_boundary 100 1000 (by decide)
    ⟨100, 5, [("k", ⟨7, 1000⟩)], {}⟩ "k" 7 (by decide) rfl
    ⟨"1.0", "p", 1000, artDoe⟩ rfl
  simpa using h

/-- C10: `MemoryCache.set` keeps the cache at or under capacity (for a
positive capacity), but the capacity check runs before the key is
examined: on a full cache, setting a key that is already present still
evicts the oldest-timestamp entry `j ≠ k` and bumps the eviction
counter, so the cache shrinks to `max_size - 1` instead of overwriting
in place. -/
theorem c10_capacity_check_before_key_lookup {α : Type} :
    (∀ (c : MemoryCache α) (k : String) (v : α) (now : Nat),
        1 ≤ c.max_size → c.data.length ≤ c.max_size →
        (c.set k v now).data.length ≤ c.max_size) ∧
    (∀ (c : MemoryCache α) (k j : String) (v : α) (now : Nat)
        (e : MemEntry α),
        c.data.length = c.max_size → (c.data.map Prod.fst).Nodup →
        oldestKey c.data = some j → j ≠ k →
        lookupKey c.data k = some e →
        (c.set k v now).stats.evictions = c.stats.evictions + 1 ∧
        lookupKey (c.set k v now).data j = none ∧
        lookupKey (c.set k v now).data k = some ⟨v, now⟩ ∧
        (c.set k v now).data.length + 1 = c.max_size) := by
  constructor
  · intro c k v now hpos hle
    by_cases hfull : c.data.length ≥ c.max_size
    · have hnonempty : c.data ≠ [] := by
        intro hnil
        rw [hnil] at hfull
        simp at hfull
        omega
      obtain ⟨p, rest, hdata⟩ : ∃ p rest, c.data = p :: rest := by
        cases hd : c.data with
        | nil => exact absurd hd hnonempty
        | cons p rest => exact ⟨p, rest, rfl⟩
      have hold : oldestKey c.data = some (oldestGo p.1 p.2 rest) := by
        rw [hdata]
        rfl
      rw [set_full_evicts c k v now hfull hold]
      have hmem : oldestGo p.1 p.2 rest ∈ c.data.map Prod.fst :=
        oldestKey_mem hold
      have hpop := dictPop_length_of_mem hmem
      have := dictInsert_length_le (dictPop c.data (oldestGo p.1 p.2 rest))
        k ⟨v, now⟩
      simp only
      omega
    · rw [set_of_length_lt c k v now (by omega)]
      have := dictInsert_length_le c.data k ⟨v, now⟩
      simp only
      omega
  · intro c k j v now e hfull hnd hold hne hlk
    have hset := set_full_evicts c k v now (by omega) hold
    rw [hset]
    refine ⟨rfl, ?_, ?_, ?_⟩
    · rw [lookupKey_dictInsert_ne _ _ hne]
      exact lookupKey_dictPop_self j hnd
    · exact lookupKey_dictInsert_self _ _ _
    · have hmem := oldestKey_mem hold
      have hpop := dictPop_length_of_mem hmem
      have hlkpop : lookupKey (dictPop c.data j) k = some e := by
        rw [lookupKey_dictPop_ne _ hne]
        exact hlk
      have := dictInsert_length_of_lookup_some (⟨v, now⟩ : MemEntry α) hlkpop
      simp only
      omega

/-- Witness for C10: a full two-entry cache where re-setting the newer
key `b` evicts the older key `a`. -/
theorem c10_witness :
    ((⟨10, 2, [("a", ⟨1, 0⟩), ("b", ⟨2, 1⟩)], {}⟩ : MemoryCache Nat).set
        "b" 9 5).stats.evictions = 0 + 1 ∧
      lookupKey (((⟨10, 2, [("a", ⟨1, 0⟩), ("b", ⟨2, 1⟩)], {}⟩ :
        MemoryCache Nat).set "b" 9 5).data) "a" = none ∧
      lookupKey (((⟨10, 2, [("a", ⟨1, 0⟩), ("b", ⟨2, 1⟩)], {}⟩ :
        MemoryCache Nat).set "b" 9 5).data) "b" = some ⟨9, 5⟩ ∧
      (((⟨10, 2, [("a", ⟨1, 0⟩), ("b", ⟨2, 1⟩)], {}⟩ :
        MemoryCache Nat).set "b" 9 5).data.length + 1 = 2) := by
  exact (c10_capacity_check_before_key_lookup (α := Nat)).2
    ⟨10, 2, [("a", ⟨1, 0⟩), ("b", ⟨2, 1⟩)], {}⟩ "b" "a" 9 5 ⟨2, 1⟩
    rfl (by decide) rfl (by decide) rfl

/-- C5 counterexample: on the spec's example article the generated
BibTeX cite key is `doej202312345678`, not `doe202312345678` — the code
lowercases the whole space-stripped first author name (`"Doe J"` →
`doej`), not the bare surname. -/
theorem c5_cite_key_counterexample :
    bibtex_cite_key artDoe = "doej202312345678" ∧
    ¬ bibtex_cite_key artDoe = "doe202312345678" ∧
    (bibtex_lines artDoe).head? = some "@article\x7bdoej202312345678," := by
  refine ⟨by decide, by decide, by decide⟩

/-- C5 (amended): exporting the example article yields RIS lines
containing `TY  - JOUR` and `PMID - 12345678`, and a BibTeX text whose
cite key is `lowercase(firstAuthorNameWithoutSpaces) + year + pmid`,
heading the first line. -/
theorem c5_citation_export_amended :
    "TY  - JOUR" ∈ ris_lines artDoe ∧
    "PMID - 12345678" ∈ ris_lines artDoe ∧
    generate_ris artDoe = String.intercalate "\n" (ris_lines artDoe) ++ "\n" ∧
    bibtex_cite_key artDoe =
      pyLower (stripSpaces "Doe J") ++ "2023" ++ artDoe.pmid ∧
    (bibtex_lines artDoe).head? =
      some ("@article\x7b" ++ bibtex_cite_key artDoe ++ ",") := by
  refine ⟨by decide, by decide, rfl, by decide, by decide⟩

theorem check_unpaywall_ne_empty {resp : Except String UnpaywallData}
    {u : String} (h : check_unpaywall resp = some u) : u ≠ "" := by
  unfold check_unpaywall at h
  cases resp with
  | error e => simp at h
  | ok data =>
      dsimp only at h
      split at h
      · rename_i hcond
        rw [← Option.some.inj h]
        exact hcond.2
      · exact absurd h (by simp)

/-- C2: when the PMC probe yields nothing but Unpaywall resolves the
article's DOI, detection returns exactly `sources = ["Unpaywall"]` with
the Unpaywall URL, independently of the publisher probe (it is never
consulted); every per-source HTTP failure is swallowed as no evidence
from that source; and a not-open-access verdict implies the PMC probe
yielded nothing and (when a DOI exists) Unpaywall yielded nothing and
the publisher scrape yielded no non-empty URL (an empty href scrape is
skipped by the code's truthiness test). -/
theorem c2_open_access_fallback (article : Article)
    (pmcHttp : Except String String) (upHttp : Except String UnpaywallData)
    (u : String) (hpmc : check_pmc pmcHttp = none)
    (hdoi : article.doi ≠ "") (hup : check_unpaywall upHttp = some u) :
    (∀ pubHttp, detect_open_access pmcHttp upHttp pubHttp article =
        ⟨true, ["Unpaywall"], some u, none⟩) ∧
    (∀ e : String, check_pmc (.error e) = none ∧
        check_unpaywall (.error e) = none ∧
        check_publisher (.error e) = none) ∧
    (∀ (p : Except String String) (up : Except String UnpaywallData)
        (pub : Except String String) (a : Article),
        (detect_open_access p up pub a).is_open_access = false →
        check_pmc p = none ∧
        (a.doi ≠ "" → check_unpaywall up = none ∧
          (∀ v, check_publisher pub = some v → v = ""))) := by
  refine ⟨?_, ?_, ?_⟩
  · intro pubHttp
    simp [detect_open_access, hpmc, hup, hdoi, check_unpaywall_ne_empty hup]
  · intro e
    exact ⟨rfl, rfl, rfl⟩
  · intro p up pub a h
    cases hp : check_pmc p with
    | some info => simp [detect_open_access, hp] at h
    | none =>
        refine ⟨rfl, fun hdoi2 => ?_⟩
        cases hu : check_unpaywall up with
        | some u2 =>
            simp [detect_open_access, hp, hu, hdoi2,
              check_unpaywall_ne_empty hu] at h
        | none =>
            refine ⟨hu ▸ rfl, ?_⟩
            intro v hb
            by_cases hv : v = ""
            · exact hv
            · exfalso
              simp [detect_open_access, hp, hu, hb, hdoi2, hv] at h

/-- Witness for C2: failed PMC probe, successful Unpaywall lookup, and a
publisher page that would have matched but is never used. -/
theorem c2_witness :
    detect_open_access (.error "net down")
      (.ok ⟨true, some ⟨"https://oa.example/a.pdf"⟩⟩)
      (.ok "<a href=\"x.pdf\">")
      { artDoe with doi := "10.1000/x" } =
      ⟨true, ["Unpaywall"], some "https://oa.example/a.pdf", none⟩ := by
  have h := c2_open_access_fallback { artDoe with doi := "10.1000/x" }
    (.error "net down") (.ok ⟨true, some ⟨"https://oa.example/a.pdf"⟩⟩)
    "https://oa.example/a.pdf" rfl (by decide) (by decide)
  exact h.1 (.ok "<a href=\"x.pdf\">")

theorem dictInsert_cons_self {β : Type} (k : String) (w v : β)
    (l : List (String × β)) :
    dictInsert ((k, w) :: l) k v = (k, v) :: l := by
  simp [dictInsert]

theorem dictInsert_mem_map_fst {β : Type} (l : List (String × β))
    (k x : String) (v : β) :
    x ∈ (dictInsert l k v).map Prod.fst ↔ x ∈ l.map Prod.fst ∨ x = k := by
  induction l with
  | nil => simp [dictInsert]
  | cons p rest ih =>
      obtain ⟨k2, w⟩ := p
      by_cases hk : k2 = k
      · subst hk
        rw [dictInsert_cons_self]
        simp only [List.map_cons, List.mem_cons]
        tauto
      · simp only [dictInsert, if_neg hk, List.map_cons, List.mem_cons, ih]
        tauto

theorem dictInsert_map_fst_nodup {β : Type} {l : List (String × β)}
    (k : String) (v : β) (h : (l.map Prod.fst).Nodup) :
    ((dictInsert l k v).map Prod.fst).Nodup := by
  induction l with
  | nil => simp [dictInsert]
  | cons p rest ih =>
      obtain ⟨k2, w⟩ := p
      simp only [List.map_cons, List.nodup_cons] at h
      by_cases hk : k2 = k
      · subst hk
        rw [dictInsert_cons_self]
        simp only [List.map_cons, List.nodup_cons]
        exact h
      · simp only [dictInsert, if_neg hk, List.map_cons, List.nodup_cons]
        refine ⟨?_, ih h.2⟩
        intro hmem
        rcases (dictInsert_mem_map_fst rest k k2 v).mp hmem with hm | hm
        · exact h.1 hm
        · exact hk hm

theorem mem_map_fst_of_lookupKey_some {β : Type} {l : List (String × β)}
    {k : String} {v : β} (h : lookupKey l k = some v) :
    k ∈ l.map Prod.fst := by
  induction l with
  | nil => simp [lookupKey_nil] at h
  | cons p rest ih =>
      obtain ⟨k2, w⟩ := p
      rw [lookupKey_cons] at h
      by_cases hk : k2 = k
      · simp [hk]
      · rw [if_neg hk] at h
        simp only [List.map_cons, List.mem_cons]
        exact Or.inr (ih h)

/-- C6: `batch_query` and `get_details` with more than 20 identifiers
fail with their descriptive errors before consulting the article cache
or the network (the outcome is independent of both oracles), and the
full identifier list is never truncated; with exactly 20 identifiers
both proceed and hand the complete list to the fetch pipeline. -/
theorem c6_batch_cardinality_cap (cache : String → Option Article)
    (net : String → Option RawSummary) (abstract_mode : String)
    (fullAbs : String → Except String String) (pmids : List String) :
    (pmids.length > 20 →
        batch_query cache net abstract_mode fullAbs pmids =
          .error "Batch query supports up to 20 PMIDs" ∧
        get_details cache net abstract_mode fullAbs pmids =
          .error "A maximum of 20 PMIDs can be requested" ∧
        (∀ (cache2 : String → Option Article)
            (net2 : String → Option RawSummary)
            (fullAbs2 : String → Except String String),
          batch_query cache net abstract_mode fullAbs pmids =
            batch_query cache2 net2 abstract_mode fullAbs2 pmids ∧
          get_details cache net abstract_mode fullAbs pmids =
            get_details cache2 net2 abstract_mode fullAbs2 pmids)) ∧
    (pmids.length = 20 →
        batch_query cache net abstract_mode fullAbs pmids =
          .ok (fetch_article_details cache net abstract_mode fullAbs pmids,
            pmids.length,
            (fetch_article_details cache net abstract_mode fullAbs
              pmids).length) ∧
        get_details cache net abstract_mode fullAbs pmids =
          .ok (fetch_article_details cache net abstract_mode fullAbs pmids,
            (fetch_article_details cache net abstract_mode fullAbs
              pmids).length)) := by
  constructor
  · intro hgt
    refine ⟨?_, ?_, ?_⟩
    · unfold batch_query
      rw [if_pos hgt]
    · unfold get_details
      rw [if_pos hgt]
    · intro cache2 net2 fullAbs2
      constructor
      · unfold batch_query
        rw [if_pos hgt, if_pos hgt]
      · unfold get_details
        rw [if_pos hgt, if_pos hgt]
  · intro heq
    constructor
    · unfold batch_query
      rw [if_neg (by omega)]
    · unfold get_details
      rw [if_neg (by omega)]

/-- Witness for C6: 21 identifiers are rejected by both entry points
(independently of the oracles), 20 are accepted. -/
theorem c6_witness :
    batch_query (fun _ => none) (fun _ => none) "quick"
        (fun _ => .error "x") ((List.range 21).map (fun n => toString n)) =
      .error "Batch query supports up to 20 PMIDs" ∧
    get_details (fun _ => none) (fun _ => none) "quick"
        (fun _ => .error "x") ((List.range 21).map (fun n => toString n)) =
      .error "A maximum of 20 PMIDs can be requested" ∧
    batch_query (fun _ => none) (fun _ => none) "quick"
        (fun _ => .error "x") ((List.range 20).map (fun n => toString n)) =
      .ok (fetch_article_details (fun _ => none) (fun _ => none) "quick"
            (fun _ => .error "x")
            ((List.range 20).map (fun n => toString n)),
          ((List.range 20).map (fun n => toString n)).length,
          (fetch_article_details (fun _ => none) (fun _ => none) "quick"
            (fun _ => .error "x")
            ((List.range 20).map (fun n => toString n))).length) := by
  have h21 := (c6_batch_cardinality_cap (fun _ => none) (fun _ => none)
    "quick" (fun _ => .error "x")
    ((List.range 21).map (fun n => toString n))).1 (by simp)
  have h20 := (c6_batch_cardinality_cap (fun _ => none) (fun _ => none)
    "quick" (fun _ => .error "x")
    ((List.range 20).map (fun n => toString n))).2 (by simp)
  exact ⟨h21.1, h21.2.1, h20.1⟩

/-- C7: a fetched PDF larger than the configured cap makes
`download_pdf` fail with `PDF too large` while leaving the fulltext
store (files and index) completely untouched; a PDF within the cap is
written under `<pmid>.pdf` and recorded in the fulltext index. -/
theorem c7_pdf_size_cap (max_pdf_size_bytes : Nat) (dir nowStr : String)
    (now_ms : Nat) (store : FulltextStore) (pmid url : String)
    (content : List Nat) (hurl : url ≠ "") :
    (content.length > max_pdf_size_bytes →
        download_pdf max_pdf_size_bytes dir nowStr now_ms store pmid url
          (.ok content) = (.failure "PDF too large", store)) ∧
    (¬ content.length > max_pdf_size_bytes →
        download_pdf max_pdf_size_bytes dir nowStr now_ms store pmid url
          (.ok content) =
          (.ok (dir ++ "/" ++ (pmid ++ ".pdf")) content.length,
           { files := dictInsert store.files (pmid ++ ".pdf") content
             index := update_fulltext_index store.index pmid
               ⟨pmid, url, pmid ++ ".pdf", content.length, nowStr, now_ms⟩
               nowStr })) ∧
    (∀ e : String,
        download_pdf max_pdf_size_bytes dir nowStr now_ms store pmid url
          (.error e) = (.failure e, store)) := by
  refine ⟨?_, ?_, ?_⟩
  · intro hbig
    unfold download_pdf
    rw [if_neg hurl]
    simp only [if_pos hbig]
  · intro hok
    unfold download_pdf
    rw [if_neg hurl]
    simp only [if_neg hok]
  · intro e
    unfold download_pdf
    rw [if_neg hurl]

/-- Witness for C7: a 3-byte body against a 2-byte cap is rejected with
the store unchanged; the same body against a 100-byte cap is written
and indexed. -/
theorem c7_witness :
    download_pdf 2 "cache/fulltext" "t" 5 {} "777" "http://x/a.pdf"
        (.ok [1, 2, 3]) = (.failure "PDF too large", {}) ∧
    download_pdf 100 "cache/fulltext" "t" 5 {} "777" "http://x/a.pdf"
        (.ok [1, 2, 3]) =
      (.ok ("cache/fulltext" ++ "/" ++ ("777" ++ ".pdf")) 3,
       { files := dictInsert ({} : FulltextStore).files ("777" ++ ".pdf")
           [1, 2, 3]
         index := update_fulltext_index ({} : FulltextStore).index "777"
           ⟨"777", "http://x/a.pdf", "777" ++ ".pdf", 3, "t", 5⟩ "t" }) := by
  constructor
  · exact (c7_pdf_size_cap 2 "cache/fulltext" "t" 5 {} "777"
      "http://x/a.pdf" [1, 2, 3] (by decide)).1 (by decide)
  · exact (c7_pdf_size_cap 100 "cache/fulltext" "t" 5 {} "777"
      "http://x/a.pdf" [1, 2, 3] (by decide)).2.1 (by decide)

/-- C8: exporting the same article twice (with export enabled) leaves
exactly one `exported_papers` entry for its PMID — the second export
overwrites the first — the key set stays duplicate-free, and the
aggregate counters all equal the number of distinct exported PMIDs. -/
theorem c8_reexport_idempotent (dir now1 now2 : String)
    (idx : EndnoteIndex) (a : Article)
    (hnd : (idx.exported_papers.map Prod.fst).Nodup) :
    ∃ i1 i2, export_endnote true dir now1 idx a = some i1 ∧
      export_endnote true dir now2 i1 a = some i2 ∧
      (i2.exported_papers.map Prod.fst).count a.pmid = 1 ∧
      (i2.exported_papers.map Prod.fst).Nodup ∧
      i2.stats.totalExports = i2.exported_papers.length ∧
      i2.stats.risFiles = i2.exported_papers.length ∧
      i2.stats.bibtexFiles = i2.exported_papers.length := by
  refine ⟨_, _, rfl, rfl, ?_, ?_, rfl, rfl, rfl⟩
  · apply List.count_eq_one_of_mem
    · exact dictInsert_map_fst_nodup _ _ (dictInsert_map_fst_nodup _ _ hnd)
    · exact mem_map_fst_of_lookupKey_some (lookupKey_dictInsert_self _ _ _)
  · exact dictInsert_map_fst_nodup _ _ (dictInsert_map_fst_nodup _ _ hnd)

/-- Witness for C8: exporting the example article twice into an empty
export index. -/
theorem c8_witness :
    ∃ i1 i2,
      export_endnote true "cache/endnote" "t1" ({} : EndnoteIndex) artDoe =
        some i1 ∧
      export_endnote true "cache/endnote" "t2" i1 artDoe = some i2 ∧
      (i2.exported_papers.map Prod.fst).count artDoe.pmid = 1 ∧
      (i2.exported_papers.map Prod.fst).Nodup ∧
      i2.stats.totalExports = i2.exported_papers.length ∧
      i2.stats.risFiles = i2.exported_papers.length ∧
      i2.stats.bibtexFiles = i2.exported_papers.length :=
  c8_reexport_idempotent "cache/endnote" "t1" "t2" {} artDoe (by simp)

theorem except_bind_ok {ε α β : Type} (a : α) (f : α → Except ε β) :
    (Except.ok a >>= f) = f a := rfl

theorem int_env_ok (env : String → Option String) (name default : String)
    (h : (pyInt (getenvD env name default)).isSome) :
    ∃ n, int_env env name default = .ok n := by
  rcases hp : pyInt (getenvD env name default) with _ | n
  · rw [hp] at h
    simp at h
  · exact ⟨n, by simp only [int_env, hp]⟩

theorem int_env_ok_of (env : String → Option String)
    (name default : String) (hd : (pyInt default).isSome)
    (hset : ∀ s, env name = some s → (pyInt s).isSome) :
    ∃ n, int_env env name default = .ok n := by
  apply int_env_ok
  unfold getenvD
  cases he : env name with
  | none => simpa using hd
  | some s => simpa using hset s he

/-- C9 counterexample: a set-but-unparsable numeric tunable does not
fall back to its default — `from_env` raises Python's `ValueError`
(modelled as `Except.error`), so configuration construction fails. -/
theorem c9_invalid_numeric_counterexample :
    from_env
      (fun name => if name = "PUBMED_RATE_LIMIT_DELAY_MS" then some "abc"
        else none) "/app" =
      .error "invalid literal for int() with base 10: abc" := rfl

/-- C9 (amended): construction from the environment succeeds whenever
every numeric tunable that is set parses as an integer; every missing
value falls back to its documented default, and an invalid value of the
string-valued `ABSTRACT_MODE` falls back to `quick` — but an unparsable
numeric value makes construction fail. -/
theorem c9_config_fallback_amended (env : String → Option String)
    (base_dir : String)
    (hnum : ∀ name, name ∈ numericEnvNames →
      ∀ s, env name = some s → (pyInt s).isSome) :
    (∃ cfg, from_env env base_dir = .ok cfg) ∧
    from_env (fun _ => none) base_dir = .ok
      { pubmed_api_key := none
        pubmed_email := none
        pubmed_tool_name := "pubmed_agent"
        abstract_mode := "quick"
        abstract_max_chars := 1500
        fulltext_mode := "disabled"
        fulltext_enabled := false
        fulltext_auto_download := false
        endnote_export_enabled := true
        rate_limit_delay_ms := 334
        request_timeout_ms := 30000
        cache_dir := base_dir ++ "/cache"
        paper_cache_dir := base_dir ++ "/cache" ++ "/papers"
        fulltext_cache_dir := base_dir ++ "/cache" ++ "/fulltext"
        endnote_cache_dir := base_dir ++ "/cache" ++ "/endnote"
        cache_version := "1.0"
        paper_cache_expiry_ms := 2592000000
        fulltext_cache_expiry_ms := 7776000000
        max_pdf_size_bytes := 52428800
        cache_timeout_ms := 300000
        cache_max_size := 100
        proxy_enabled := false
        http_proxy := none
        https_proxy := none
        proxy_username := none
        proxy_password := none
        proxy_timeout := 30
        proxy_retry_count := 3 } ∧
    from_env (fun n => if n = "ABSTRACT_MODE" then some "bogus" else none)
        base_dir =
      from_env (fun _ => none) base_dir := by
  refine ⟨?_, rfl, rfl⟩
  obtain ⟨n1, h1⟩ := int_env_ok_of env "PUBMED_RATE_LIMIT_DELAY_MS" "334"
    (by decide) (hnum _ (by decide))
  obtain ⟨n2, h2⟩ := int_env_ok_of env "PUBMED_REQUEST_TIMEOUT_MS" "30000"
    (by decide) (hnum _ (by decide))
  obtain ⟨n3, h3⟩ := int_env_ok_of env "PUBMED_PAPER_CACHE_EXPIRY_MS"
    "2592000000" (by decide) (hnum _ (by decide))
  obtain ⟨n4, h4⟩ := int_env_ok_of env "PUBMED_FULLTEXT_CACHE_EXPIRY_MS"
    "7776000000" (by decide) (hnum _ (by decide))
  obtain ⟨n5, h5⟩ := int_env_ok_of env "PUBMED_MAX_PDF_SIZE_BYTES"
    "52428800" (by decide) (hnum _ (by decide))
  obtain ⟨n6, h6⟩ := int_env_ok_of env "PUBMED_MEMORY_CACHE_TIMEOUT_MS"
    "300000" (by decide) (hnum _ (by decide))
  obtain ⟨n7, h7⟩ := int_env_ok_of env "PUBMED_MEMORY_CACHE_MAX_SIZE" "100"
    (by decide) (hnum _ (by decide))
  obtain ⟨n8, h8⟩ := int_env_ok_of env "PROXY_TIMEOUT" "30"
    (by decide) (hnum _ (by decide))
  obtain ⟨n9, h9⟩ := int_env_ok_of env "PROXY_RETRY_COUNT" "3"
    (by decide) (hnum _ (by decide))
  exact ⟨_, by
    simp only [from_env, h1, h2, h3, h4, h5, h6, h7, h8, h9, except_bind_ok]
    rfl⟩

/-- Witness for C9 at the empty environment (no variable set). -/
theorem c9_witness :
    ∃ cfg, from_env (fun _ => none) "/app" = .ok cfg := by
  have h := c9_config_fallback_amended (fun _ => none) "/app"
    (fun name _ s hs => Option.noConfusion hs)
  exact h.1

theorem deepAbstract_pmid (m : String) (f : String → Except String String)
    (p : String) (a : Article) : (deepAbstract m f p a).pmid = a.pmid := by
  unfold deepAbstract
  dsimp only
  split
  · split <;> rfl
  · rfl

theorem fetch_one_pmid (net : String → Option RawSummary) (m : String)
    (f : String → Except String String) {p : String} {a : Article}
    (h : fetch_one net m f p = some a) : a.pmid = p := by
  unfold fetch_one at h
  cases hn : net p with
  | none => rw [hn] at h; simp at h
  | some raw =>
      rw [hn] at h
      simp only [Option.map_some', Option.some.injEq] at h
      rw [← h, deepAbstract_pmid]
      rfl

theorem dictLast_foldl_no_match (l : List Article) (q : String)
    (acc : Option Article) (h : ∀ x ∈ l, ¬ x.pmid = q) :
    l.foldl (fun acc a => if a.pmid = q then some a else acc) acc = acc := by
  induction l generalizing acc with
  | nil => rfl
  | cons y rest ih =>
      have hy := h y (List.mem_cons_self _ _)
      simp only [List.foldl_cons, if_neg hy]
      exact ih acc (fun x hx => h x (List.mem_cons_of_mem _ hx))

theorem dictLast_foldl_const (l : List Article) (q : String) (a : Article)
    (h : ∀ x ∈ l, x.pmid = q → x = a) :
    l.foldl (fun acc x => if x.pmid = q then some x else acc) (some a) =
      some a := by
  induction l with
  | nil => rfl
  | cons y rest ih =>
      by_cases hy : y.pmid = q
      · have := h y (List.mem_cons_self _ _) hy
        subst this
        simp only [List.foldl_cons, if_pos hy]
        exact ih (fun x hx => h x (List.mem_cons_of_mem _ hx))
      · simp only [List.foldl_cons, if_neg hy]
        exact ih (fun x hx => h x (List.mem_cons_of_mem _ hx))

theorem dictLast_foldl_found (l : List Article) (q : String) (a : Article)
    (hex : ∃ x ∈ l, x.pmid = q) (huniq : ∀ x ∈ l, x.pmid = q → x = a) :
    l.foldl (fun acc x => if x.pmid = q then some x else acc) none =
      some a := by
  induction l with
  | nil => simp at hex
  | cons y rest ih =>
      by_cases hy : y.pmid = q
      · have hya := huniq y (List.mem_cons_self _ _) hy
        subst hya
        simp only [List.foldl_cons, if_pos hy]
        exact dictLast_foldl_const rest q y
          (fun x hx => huniq x (List.mem_cons_of_mem _ hx))
      · simp only [List.foldl_cons, if_neg hy]
        obtain ⟨x, hx, hxq⟩ := hex
        rcases List.mem_cons.mp hx with rfl | hx2
        · exact absurd hxq hy
        · exact ih ⟨x, hx2, hxq⟩
            (fun z hz => huniq z (List.mem_cons_of_mem _ hz))

theorem fetch_details_pointwise (cache : String → Option Article)
    (net : String → Option RawSummary) (m : String)
    (f : String → Except String String)
    (hcache : ∀ p a, cache p = some a → a.pmid = p) (ids : List String)
    (q : String) (hq : q ∈ ids) :
    dictLast
      (ids.filterMap cache ++
        fetch_from_pubmed net m f (ids.filter (fun p => (cache p).isNone)))
      q = resolve_article cache net m f q := by
  unfold dictLast fetch_from_pubmed
  rw [List.foldl_append]
  cases hc : cache q with
  | some a =>
      have hA : (ids.filterMap cache).foldl
          (fun acc x => if x.pmid = q then some x else acc) none = some a := by
        apply dictLast_foldl_found
        · exact ⟨a, List.mem_filterMap.mpr ⟨q, hq, hc⟩, hcache q a hc⟩
        · intro x hx hxq
          obtain ⟨p, _, hp⟩ := List.mem_filterMap.mp hx
          have hxp := hcache p x hp
          rw [hxq] at hxp
          rw [← hxp] at hp
          rw [hc] at hp
          exact (Option.some.inj hp).symm
      rw [hA]
      rw [dictLast_foldl_no_match _ q (some a) ?_]
      · simp [resolve_article, hc]
      · intro x hx hxq
        obtain ⟨p, hpmem, hp⟩ := List.mem_filterMap.mp hx
        have hxp := fetch_one_pmid net m f hp
        rw [hxq] at hxp
        have hnone := (List.mem_filter.mp hpmem).2
        rw [← hxp] at hnone
        rw [hc] at hnone
        simp at hnone
  | none =>
      rw [dictLast_foldl_no_match _ q none ?_]
      · cases hf : fetch_one net m f q with
        | some b =>
            rw [dictLast_foldl_found _ q b ?_ ?_]
            · simp [resolve_article, hc, hf]
            · refine ⟨b, List.mem_filterMap.mpr ⟨q, ?_, hf⟩,
                fetch_one_pmid net m f hf⟩
              exact List.mem_filter.mpr ⟨hq, by simp [hc]⟩
            · intro x hx hxq
              obtain ⟨p, _, hp⟩ := List.mem_filterMap.mp hx
              have hxp := fetch_one_pmid net m f hp
              rw [hxq] at hxp
              rw [← hxp] at hp
              rw [hf] at hp
              exact (Option.some.inj hp).symm
        | none =>
            rw [dictLast_foldl_no_match _ q none ?_]
            · simp [resolve_article, hc, hf]
            · intro x hx hxq
              obtain ⟨p, _, hp⟩ := List.mem_filterMap.mp hx
              have hxp := fetch_one_pmid net m f hp
              rw [hxq] at hxp
              rw [← hxp] at hp
              rw [hf] at hp
              exact Option.noConfusion hp
      · intro x hx hxq
        obtain ⟨p, _, hp⟩ := List.mem_filterMap.mp hx
        have hxp := hcache p x hp
        rw [hxq] at hxp
        rw [← hxp] at hp
        rw [hc] at hp
        exact Option.noConfusion hp

/-- C1 (amended): provided every cached record is filed under its own
pmid, `fetch_article_details` returns, in input order, one article per
input-pmid occurrence — the cached article when present, otherwise the
network result — and omits pmids missing from both; output order never
depends on the cache/network split, but a duplicated pmid contributes
one entry per occurrence rather than being omitted. -/
theorem c1_fetch_details_order_amended (cache : String → Option Article)
    (net : String → Option RawSummary) (abstract_mode : String)
    (fullAbs : String → Except String String) (ids : List String)
    (hcache : ∀ p a, cache p = some a → a.pmid = p) :
    fetch_article_details cache net abstract_mode fullAbs ids =
      ids.filterMap (resolve_article cache net abstract_mode fullAbs) := by
  unfold fetch_article_details
  dsimp only
  exact List.filterMap_congr
    (fun q hq => fetch_details_pointwise cache net abstract_mode fullAbs
      hcache ids q hq)

/-- C1 counterexample: a pmid duplicated in the input is not omitted —
the same cached article is returned once per occurrence, so the output
has two entries, not one. -/
theorem c1_duplicates_counterexample :
    fetch_article_details
      (fun p => if p = "1" then some { artDoe with pmid := "1" } else none)
      (fun _ => none) "quick" (fun _ => .error "e") ["1", "1"] =
      [{ artDoe with pmid := "1" }, { artDoe with pmid := "1" }] ∧
    ([{ artDoe with pmid := "1" }, { artDoe with pmid := "1" }] :
      List Article).length ≠ 1 := by
  refine ⟨by decide, by decide⟩

/-- Witness for C1: pmid `2` pre-cached, `1` and `3` served by the
network, `9` missing from both. -/
theorem c1_witness :
    fetch_article_details
      (fun p => if p = "2" then some { artDoe with pmid := "2" } else none)
      (fun p => if p = "1" ∨ p = "3" then some { title := some ("t" ++ p) }
        else none)
      "quick" (fun _ => .error "e") ["1", "2", "3", "9"] =
      ["1", "2", "3", "9"].filterMap
        (resolve_article
          (fun p => if p = "2" then some { artDoe with pmid := "2" }
            else none)
          (fun p => if p = "1" ∨ p = "3" then
            some { title := some ("t" ++ p) } else none)
          "quick" (fun _ => .error "e")) := by
  apply c1_fetch_details_order_amended
  intro p a h
  by_cases hp : p = "2"
  · subst hp
    rw [if_pos rfl] at h
    exact (Option.some.inj h) ▸ rfl
  · rw [if_neg hp] at h
    exact Option.noConfusion h

end PubMedMCP
